import Mathlib

/-!
Shallow embedding of `src/vbox-shutdown.py`, the VirtualBox auto-shutdown
tray service.  The pieces the specification talks about — machine states,
the snapshot enumeration (`VBContext.machines`), the shutdown/save state
machines (`VBContext.shutdown_machine` / `save_machine`), the reentrancy
guard (`RecursionGuard`), the refcounted shutdown veto (`ShutdownBlocker`)
and the thread-affine executor (`VBCController`) — are translated as pure
functions over explicit state.  Time, threads and the COM API are modelled
by explicit parameters: the state a machine reports over polling iterations
is a function `Nat → MState`, session acquisition success is a boolean, and
the executor's cross-thread rendezvous is collapsed to its sequential
effect (`call` blocks its caller until the worker finishes the submitted
operation, so the pair acts as one state transformer).
-/

/-- Machine states used by the script.  `self.OffMachineStates` in the source
is the tuple `(PoweredOff, Saved, Teleported, Aborted)` (lines 173-178);
`other` stands for the remaining states of the VirtualBox enumeration that
the script does not distinguish. -/
inductive MState where
  | poweredOff
  | saved
  | teleported
  | aborted
  | paused
  | running
  | other (code : Nat)
deriving DecidableEq

/-- Membership test `state in self.OffMachineStates`. -/
def isOff : MState → Bool
  | .poweredOff => true
  | .saved => true
  | .teleported => true
  | .aborted => true
  | _ => false

/-- A raw machine as yielded by `self._machines()`; `meta = none` models a
machine whose metadata access (`m.name` / `m.state`) raises (for example a
machine located on a disconnected external drive). -/
structure RawMachine where
  meta : Option (String × MState)
deriving DecidableEq

/-- `VBContext.Machine` (lines 156-160) — the immutable snapshot surrogate
`(index, name, state)` used so COM methods are never called off-thread. -/
structure Machine where
  index : Nat
  name : String
  state : MState
deriving DecidableEq

/-- Loop of `VBContext.machines` (lines 202-213): the counter `i` is
incremented for every raw machine (the increment precedes the metadata
access inside the `try`, and itself cannot fail), a snapshot with index
`i-1` is appended only when the metadata access succeeds, and the `except`
branch is `pass` — it emits no log line (the `logging.error` call there is
commented out in the source).  Returns the snapshots together with the log
lines the function emits. -/
def machinesAux : List RawMachine → Nat → List Machine × List String
  | [], _ => ([], [])
  | m :: rest, i =>
    match m.meta with
    | some p =>
      (⟨i, p.1, p.2⟩ :: (machinesAux rest (i + 1)).1, (machinesAux rest (i + 1)).2)
    | none => machinesAux rest (i + 1)

/-- `VBContext.machines`. -/
def machines (raw : List RawMachine) : List Machine × List String :=
  machinesAux raw 0

/-- Console commands the shutdown/save state machines can issue. -/
inductive Cmd where
  | resume
  | powerButton
  | saveState
deriving DecidableEq

/-- Outcome of a Python call at its caller: a normal return or an uncaught
exception propagating out. -/
inductive PyResult (α : Type) where
  | ok (val : α)
  | exn (msg : String)
deriving DecidableEq

/-- Python truthiness of the values these functions return: `none` models
Python `None` (falsy); `some b` models the boolean `b`. -/
def pyTruthy : Option Bool → Bool
  | some b => b
  | none => false

/-- The 20-iteration loop of `VBContext.shutdown_machine` (lines 225-235).
`trace i` is the state the locked machine view reports at iteration `i`:
`Paused` gets a resume, an off-state returns `True` immediately, anything
else gets the ACPI power button, then the loop sleeps one time-unit and goes
round again; falling off the loop returns Python `None`.  Issued console
commands are collected; a fault while issuing a command is not modelled
separately (it would be caught by the inner handler at lines 236-237 and,
like exhaustion, end the call with `None`). -/
def shutdownIter (trace : Nat → MState) : Nat → Nat → Option Bool × List Cmd
  | _, 0 => (none, [])
  | i, fuel + 1 =>
    if trace i = MState.paused then
      ((shutdownIter trace (i + 1) fuel).1,
        Cmd.resume :: (shutdownIter trace (i + 1) fuel).2)
    else if isOff (trace i) then (some true, [])
    else
      ((shutdownIter trace (i + 1) fuel).1,
        Cmd.powerButton :: (shutdownIter trace (i + 1) fuel).2)

/-- Body of `shutdown_machine` inside the recursion guard (lines 220-239):
re-resolve the live machine as `self._machines()[surrogate.index]` (an
out-of-range index raises IndexError, caught by the outer handler at lines
238-239), read its name for the log line (a metadata fault is caught
likewise), acquire a shared `VBSession` (on failure `__enter__` yields
`None` and the `as (sess, machine)` unpacking raises, caught likewise), then
run the polling loop.  Every caught-exception path yields Python `None` with
no commands issued. -/
def shutdownBody (raw : List RawMachine) (idx : Nat) (sessOk : Bool)
    (trace : Nat → MState) : Option Bool × List Cmd :=
  match raw[idx]? with
  | none => (none, [])
  | some m =>
    match m.meta with
    | none => (none, [])
    | some _ =>
      if sessOk then shutdownIter trace 0 20 else (none, [])

/-- `VBContext.shutdown_machine` (lines 218-239) including the
`with self._recursion_guard` wrapper: entering at depth `guard` increments
the counter and raises when it exceeds 1; Python calls `__exit__` only when
`__enter__` returned normally, so on the reentrancy fault the counter stays
incremented, while on the normal path the matching exit restores it.
Returns the Python outcome, the issued commands, and the guard counter
after the call. -/
def shutdown_machine (guard : Int) (raw : List RawMachine) (idx : Nat)
    (sessOk : Bool) (trace : Nat → MState) :
    PyResult (Option Bool) × List Cmd × Int :=
  if guard + 1 > 1 then (PyResult.exn "Recursion detected!", [], guard + 1)
  else
    (PyResult.ok (shutdownBody raw idx sessOk trace).1,
      (shutdownBody raw idx sessOk trace).2, guard)

/-- The 20-iteration polling loop of `VBContext.save_machine` (lines
252-258): return `True` as soon as an off-state is observed, Python `None`
on exhaustion. -/
def savePoll (trace : Nat → MState) : Nat → Nat → Option Bool
  | _, 0 => none
  | i, fuel + 1 =>
    if isOff (trace i) then some true else savePoll trace (i + 1) fuel

/-- Body of `save_machine` inside the recursion guard (lines 243-262):
re-resolve by index and read the name for the log line (faults caught by the
outer handler, lines 261-262); only when the re-resolved state is NOT an
off-state does it acquire a session, issue `saveState()` once and poll.
When the state is already off, the `if` at line 246 falls through and the
function returns Python `None` having issued no command. -/
def saveBody (raw : List RawMachine) (idx : Nat) (sessOk : Bool)
    (trace : Nat → MState) : Option Bool × List Cmd :=
  match raw[idx]? with
  | none => (none, [])
  | some m =>
    match m.meta with
    | none => (none, [])
    | some p =>
      if isOff p.2 then (none, [])
      else if sessOk then (savePoll trace 0 20, [Cmd.saveState])
      else (none, [])

/-- `VBContext.save_machine` (lines 241-262) with the recursion-guard
wrapper, exactly as in `shutdown_machine`. -/
def save_machine (guard : Int) (raw : List RawMachine) (idx : Nat)
    (sessOk : Bool) (trace : Nat → MState) :
    PyResult (Option Bool) × List Cmd × Int :=
  if guard + 1 > 1 then (PyResult.exn "Recursion detected!", [], guard + 1)
  else
    (PyResult.ok (saveBody raw idx sessOk trace).1,
      (saveBody raw idx sessOk trace).2, guard)

/-- `RecursionGuard.__enter__` (lines 296-299): increment `_value`, then
raise when it exceeds 1.  Returns the counter after the increment and
whether the reentrancy fault was raised. -/
def guardEnter (v : Int) : Int × Bool := (v + 1, decide (v + 1 > 1))

/-- `RecursionGuard.__exit__` (lines 301-302): decrement `_value`. -/
def guardExit (v : Int) : Int := v - 1

/-- One guarded invocation via `with self._recursion_guard:` — per Python's
`with`-statement semantics (PEP 343), `__exit__` runs only when `__enter__`
returned normally, so a raising enter leaves the incremented counter in
place.  Returns the counter after the whole statement and whether the
statement faulted. -/
def withGuard (v : Int) : Int × Bool :=
  if (guardEnter v).2 then ((guardEnter v).1, true)
  else (guardExit (guardEnter v).1, false)

/-- `ShutdownBlocker` state (lines 305-320) plus instrumentation counting
the OS veto registrations (`ShutdownBlockReasonCreate`) and unregistrations
(`ShutdownBlockReasonDestroy`) it has issued. -/
structure ShutdownBlocker where
  counter : Int
  registers : Nat
  unregisters : Nat
deriving DecidableEq

/-- Freshly constructed blocker (`counter = 0`, line 309), no OS calls yet. -/
def sbInit : ShutdownBlocker := ⟨0, 0, 0⟩

/-- `ShutdownBlocker.enable` (lines 311-314): register the veto only on the
0→1 transition, then increment. -/
def ShutdownBlocker.enable (s : ShutdownBlocker) : ShutdownBlocker :=
  if s.counter = 0 then
    { s with registers := s.registers + 1, counter := s.counter + 1 }
  else { s with counter := s.counter + 1 }

/-- `ShutdownBlocker.disable` (lines 316-320): unregister only when the
counter is exactly 1, and decrement only while it is positive. -/
def ShutdownBlocker.disable (s : ShutdownBlocker) : ShutdownBlocker :=
  if s.counter = 1 then
    { s with unregisters := s.unregisters + 1, counter := s.counter - 1 }
  else if s.counter > 0 then { s with counter := s.counter - 1 }
  else s

/-- An operation applied to the blocker. -/
inductive SBOp where
  | enable
  | disable
deriving DecidableEq

def sbStep (s : ShutdownBlocker) : SBOp → ShutdownBlocker
  | .enable => s.enable
  | .disable => s.disable

/-- Run a sequence of enable/disable operations on a fresh blocker. -/
def sbRun (ops : List SBOp) : ShutdownBlocker := ops.foldl sbStep sbInit

/-- `VBCController` state (lines 50-65).  `hasThread` models
`self._thread is not None`, `threadAlive` that this thread is alive,
`evStarted`/`evResult` the two `threading.Event`s, `callResult` is
`_call_result` (with `none` for Python `None`); operation results are
represented as `Option Nat`.  `timerArmed` says whether a pending idle
`_stop_timer` is alive. -/
structure Ctl where
  enabled : Bool
  hasThread : Bool
  threadAlive : Bool
  evStarted : Bool
  evResult : Bool
  callResult : Option Nat
  acquireCnt : Int
  timerArmed : Bool
deriving DecidableEq

/-- State after `VBCController.__init__` (lines 51-65). -/
def ctlInit : Ctl :=
  { enabled := false, hasThread := false, threadAlive := false,
    evStarted := false, evResult := false, callResult := none,
    acquireCnt := 0, timerArmed := false }

/-- `VBCController._timer_stop` (lines 130-133): cancel a pending timer. -/
def Ctl.timerStop (st : Ctl) : Ctl := { st with timerArmed := false }

/-- `VBCController._timer_start` (lines 118-128): refuse to arm while a hold
is active, otherwise cancel any pending timer and arm a fresh 15-second
one. -/
def Ctl.timerStart (st : Ctl) : Ctl :=
  if st.acquireCnt > 0 then st else { st.timerStop with timerArmed := true }

/-- `VBCController._start` (lines 103-108): spawn the worker only when not
already enabled.  The worker sets `_ev_started` before constructing the
`VBContext` (lines 79-80), so the wait inside `_start` returns even if that
construction then raises and the worker dies; `spawnAlive` says whether the
freshly spawned worker is still alive afterwards. -/
def Ctl.start (st : Ctl) (spawnAlive : Bool) : Ctl :=
  if st.enabled then st
  else { st with enabled := true, hasThread := true,
                 threadAlive := spawnAlive, evStarted := true }

/-- Joining `self._thread`: joining when `_thread` is `None` would be an
attribute error, but `stop` guards the join with `if self._thread:`. -/
def Ctl.joinThread (st : Ctl) : Except String Ctl :=
  if st.hasThread then Except.ok { st with threadAlive := false }
  else Except.error "AttributeError: NoneType object has no attribute join"

/-- `VBCController.stop` (lines 110-116): clear `_enabled` and notify — a
live worker then exits its loop, clearing the pending-call fields including
`_call_result` on the way out (lines 94-96) — join only when `_thread` is
set, then clear `_ev_started`. -/
def Ctl.stop (st : Ctl) : Except String Ctl :=
  let st1 : Ctl := { st with enabled := false }
  let st2 : Ctl := if st1.threadAlive then { st1 with callResult := none } else st1
  match (if st2.hasThread then st2.joinThread else Except.ok st2) with
  | Except.ok st3 => Except.ok { st3 with evStarted := false }
  | Except.error e => Except.error e

/-- `VBCController.__enter__` (lines 67-71): stop the idle timer, bump the
hold count, lazily start the worker. -/
def Ctl.acquire (st : Ctl) (spawnAlive : Bool) : Ctl :=
  Ctl.start { st with timerArmed := false, acquireCnt := st.acquireCnt + 1 }
    spawnAlive

/-- `VBCController.__exit__` (lines 73-76): drop the hold count and, exactly
when it reaches zero, (re)arm the idle timer. -/
def Ctl.release (st : Ctl) : Ctl :=
  if st.acquireCnt - 1 = 0 then
    Ctl.timerStart { st with acquireCnt := st.acquireCnt - 1 }
  else { st with acquireCnt := st.acquireCnt - 1 }

/-- `k` nested `__enter__` calls. -/
def acqN : Nat → Ctl → Ctl
  | 0, st => st
  | k + 1, st => acqN k (st.acquire true)

/-- `k` matching `__exit__` calls. -/
def relN : Nat → Ctl → Ctl
  | 0, st => st
  | k + 1, st => relN k st.release

/-- What a `call` yields to its caller: the value of `_call_result`, or
`blocked` when `_ev_result.wait()` can never be signalled. -/
inductive CallOutcome where
  | blocked
  | returned (val : Option Nat)
deriving DecidableEq

/-- The worker executing one submitted call (lines 84-91): on success assign
`_call_result`; when the operation raises, log the fault and leave
`_call_result` untouched; either way clear the request fields and set
`_ev_result`. -/
def Ctl.workerProcess (st : Ctl) (op : Except String (Option Nat)) :
    Ctl × List String :=
  match op with
  | Except.ok v => ({ st with callResult := v, evResult := true }, [])
  | Except.error e =>
    ({ st with evResult := true }, ["Call to VB context failed: " ++ e])

/-- `VBCController.call` (lines 145-151) together with `_call_async` (lines
135-143) and the worker turn it triggers, collapsed to its sequential
effect.  When the worker thread is alive at submission, `_call_async` clears
`_ev_result` and submits, the worker processes the operation and signals,
and `call` returns `_call_result` after re-arming the idle timer.  When the
worker thread is NOT alive, `_call_async` logs an error and returns without
submitting or touching `_ev_result`; `call` still executes
`_ev_result.wait()`, which blocks forever unless a previously completed call
left the event set — in which case the stale `_call_result` is returned. -/
def Ctl.call (st : Ctl) (spawnAlive : Bool) (op : Except String (Option Nat)) :
    CallOutcome × Ctl × List String :=
  let st1 : Ctl := st.timerStop.start spawnAlive
  if st1.hasThread && st1.threadAlive then
    let st2 : Ctl := { st1 with evResult := false }
    let pr := st2.workerProcess op
    (CallOutcome.returned pr.1.callResult, pr.1.timerStart, pr.2)
  else
    if st1.evResult then
      (CallOutcome.returned st1.callResult, st1.timerStart,
        ["VBController thread is not running!"])
    else
      (CallOutcome.blocked, st1, ["VBController thread is not running!"])

/-- Concrete raw list for the C1 counterexample: one machine, powered off. -/
def rawOffProg : List RawMachine := [⟨some ("vm", MState.poweredOff)⟩]

/-- Concrete raw list for the C4 witness: one running machine. -/
def rawC4 : List RawMachine := [⟨some ("a", MState.running)⟩]

/-- Concrete raw list for the C7 counterexample: a machine whose metadata
access faults followed by an accessible one. -/
def rawC7 : List RawMachine := [⟨none⟩, ⟨some ("a", MState.running)⟩]

/-- Concrete raw list for the C9 witness. -/
def rawC9 : List RawMachine := [⟨none⟩, ⟨some ("b", MState.paused)⟩]

/-- Executor whose worker thread has died while `_enabled` is still true:
the worker set `_ev_started`, then `VBContext()` construction raised (its
`try` only catches ImportError, lines 165-189) and the thread exited; no
call has ever completed, so `_ev_result` is clear. -/
def deadCtl : Ctl :=
  { enabled := true, hasThread := true, threadAlive := false,
    evStarted := true, evResult := false, callResult := none,
    acquireCnt := 0, timerArmed := false }

/-- First call on a fresh executor, running an operation that returns 5. -/
def c2First : CallOutcome × Ctl × List String :=
  ctlInit.call true (Except.ok (some 5))

/-- Invariant tying the blocker's refcount to the OS veto calls it issued:
the count never goes negative, and registrations exceed unregistrations by
exactly one while the veto is active and by zero while it is not. -/
def sbInv (s : ShutdownBlocker) : Prop :=
  0 ≤ s.counter ∧
    (s.registers : Int) =
      (s.unregisters : Int) + (if 0 < s.counter then 1 else 0)

/-- C1 counterexample: for a machine whose re-resolved state is `PoweredOff`,
`save_machine` issues no save-state command but returns Python `None`, which
is falsy — not the truthy success result the claim asserts. -/
theorem c1_save_off_not_truthy :
    save_machine 0 rawOffProg 0 true (fun _ => MState.poweredOff)
      = (PyResult.ok none, [], 0) ∧ pyTruthy none = false := by
  decide

/-- C2: the worker assigns `_call_result` only on success and never clears it
between calls, so a call whose operation raises hands the previous call's
result back to its caller.  On a fresh executor, a first call returning 5
succeeds; a second call that raises has its fault logged and not re-raised,
but returns the stale 5 instead of no result. -/
theorem c2_fault_returns_stale_result :
    c2First.1 = CallOutcome.returned (some 5) ∧
    (c2First.2.1.call true (Except.error "boom")).1
      = CallOutcome.returned (some 5) ∧
    (c2First.2.1.call true (Except.error "boom")).2.2
      = ["Call to VB context failed: boom"] := by
  decide

/-- C3: a reentrant enter at depth 1 does raise (the first half of the claim
holds), but the guard does not self-heal: Python skips `__exit__` when
`__enter__` raises, so the faulted inner invocation leaves the counter at 2,
the outer invocation's own exit only brings it back to 1, and every later
sequential guarded invocation faults again — while an invocation on a
healthy depth-0 guard does not.  This contradicts the claim that the
matching exit still decrements after the fault so that later sequential
invocations never fault. -/
theorem c3_guard_does_not_self_heal :
    withGuard 1 = (2, true) ∧
    guardExit 2 = 1 ∧
    (withGuard 1).2 = true ∧
    (withGuard 0).2 = false := by
  decide

/-- C6 counterexample: on a freshly constructed executor the idle timer is
not armed, yet one `acquire` followed by one `release` leaves it armed — the
pair does not leave the timer "exactly as armed as it was before the first
acquire". -/
theorem c6_fresh_acquire_release_arms_timer :
    ctlInit.timerArmed = false ∧
    (relN 1 (acqN 1 ctlInit)).timerArmed = true := by
  decide

/-- C7 counterexample: enumerating a list in which the first machine's
metadata access faults produces NO log line (the `except` branch is `pass`;
the `logging.error` call in the source is commented out), refuting the claim
that each per-machine fault is logged; the faulting machine is skipped and
the accessible machine is still returned. -/
theorem c7_fault_not_logged :
    (machines rawC7).2 = [] ∧
    (rawC7.filter (fun m => m.meta.isNone)).length = 1 ∧
    (machines rawC7).1 = [⟨1, "a", MState.running⟩] := by
  decide

/-- C8: `call` on an executor whose worker thread died while `_enabled` is
still true logs the error, but `_call_async` returns without submitting or
clearing `_ev_result`, and `call` then executes `_ev_result.wait()`: with no
previously completed call the event is clear and `call` blocks forever;
and if an earlier call had completed (leaving the event set and a result
behind), `call` instead returns that stale result.  Either way it does not
"return no result rather than blocking forever". -/
theorem c8_dead_worker_blocks :
    (deadCtl.call true (Except.ok (some 1))).1 = CallOutcome.blocked ∧
    (deadCtl.call true (Except.ok (some 1))).2.2
      = ["VBController thread is not running!"] ∧
    (({ deadCtl with evResult := true, callResult := some 7 } : Ctl).call
        true (Except.ok (some 1))).1 = CallOutcome.returned (some 7) := by
  decide

/-- C10: `stop` on a never-started executor does not fault — `_enabled` is
set false, the join is skipped because `_thread` is `None`, and
`_ev_started` is cleared, leaving exactly the freshly constructed state —
and a later `call` on that state starts a fresh live worker and completes
normally. -/
theorem stop_never_started_safe :
    Ctl.stop ctlInit = Except.ok ctlInit ∧
    ctlInit.hasThread = false ∧
    (ctlInit.call true (Except.ok (some 1))).1
      = CallOutcome.returned (some 1) ∧
    (ctlInit.call true (Except.ok (some 1))).2.1.threadAlive = true :=
  ⟨rfl, rfl, rfl, rfl⟩

/-- C1 (amended): for every machine snapshot whose re-resolved machine is
already in an off-state, `save_machine` (entered non-reentrantly) issues no
save-state command and returns Python `None` — a falsy no-op return, not a
truthy success: the `if machine.state not in self.OffMachineStates` check
falls through and the function ends without a `return`. -/
theorem save_machine_off_noop (raw : List RawMachine) (idx : Nat)
    (sessOk : Bool) (trace : Nat → MState) (m : RawMachine)
    (nm : String) (s : MState) (hm : raw[idx]? = some m)
    (hmeta : m.meta = some (nm, s)) (hoff : isOff s = true) :
    save_machine 0 raw idx sessOk trace = (PyResult.ok none, [], 0) := by
  simp [save_machine, saveBody, hm, hmeta, hoff]

/-- Witness for `save_machine_off_noop` at a concrete saved machine. -/
theorem save_machine_off_noop_witness :
    save_machine 0 [⟨some ("w", MState.saved)⟩] 0 true (fun _ => MState.saved)
      = (PyResult.ok none, [], 0) :=
  save_machine_off_noop [⟨some ("w", MState.saved)⟩] 0 true
    (fun _ => MState.saved) ⟨some ("w", MState.saved)⟩ "w" MState.saved
    rfl rfl rfl

/-- Unfolding lemma for one iteration of the shutdown loop. -/
theorem shutdownIter_succ (trace : Nat → MState) (i fuel : Nat) :
    shutdownIter trace i (fuel + 1) =
      if trace i = MState.paused then
        ((shutdownIter trace (i + 1) fuel).1,
          Cmd.resume :: (shutdownIter trace (i + 1) fuel).2)
      else if isOff (trace i) then (some true, [])
      else
        ((shutdownIter trace (i + 1) fuel).1,
          Cmd.powerButton :: (shutdownIter trace (i + 1) fuel).2) := rfl

/-- If no iteration ever observes an off-state, the shutdown loop exhausts
its fuel and yields Python `None`. -/
theorem shutdownIter_none (trace : Nat → MState) :
    ∀ fuel i, (∀ j, j < i + fuel → isOff (trace j) = false) →
      (shutdownIter trace i fuel).1 = none := by
  intro fuel
  induction fuel with
  | zero => intro i _; rfl
  | succ n ih =>
    intro i h
    have hoff : isOff (trace i) = false := h i (by omega)
    rw [shutdownIter_succ]
    by_cases hp : trace i = MState.paused
    · simp only [hp, if_pos rfl]
      exact ih (i + 1) (fun j hj => h j (by omega))
    · rw [if_neg hp, if_neg (by simp [hoff])]
      exact ih (i + 1) (fun j hj => h j (by omega))

/-- C4: for a non-reentrant `shutdown_machine` invocation on a resolvable
snapshot index with accessible metadata and a successfully acquired shared
session: a machine observed `Paused` on the first iteration gets a resume as
the first issued command; a machine already in an off-state yields `True`
immediately with no command issued; and a machine that never reaches an
off-state within the 20 polling iterations yields Python `None` — a falsy
normal return, so no exception escapes to the caller. -/
theorem shutdown_machine_cases (raw : List RawMachine) (idx : Nat)
    (m : RawMachine) (trace : Nat → MState) (hm : raw[idx]? = some m)
    (hmeta : m.meta.isSome = true) :
    (trace 0 = MState.paused →
      ∃ rest, (shutdown_machine 0 raw idx true trace).2.1
        = Cmd.resume :: rest) ∧
    (isOff (trace 0) = true →
      shutdown_machine 0 raw idx true trace
        = (PyResult.ok (some true), [], 0)) ∧
    ((∀ j, j < 20 → isOff (trace j) = false) →
      (shutdown_machine 0 raw idx true trace).1 = PyResult.ok none) := by
  obtain ⟨p, hp⟩ := Option.isSome_iff_exists.mp hmeta
  have hbody : shutdown_machine 0 raw idx true trace
      = (PyResult.ok (shutdownIter trace 0 20).1,
          (shutdownIter trace 0 20).2, 0) := by
    simp [shutdown_machine, shutdownBody, hm, hp]
  refine ⟨?_, ?_, ?_⟩
  · intro ha
    refine ⟨(shutdownIter trace 1 19).2, ?_⟩
    rw [hbody]
    show (shutdownIter trace 0 20).2 = _
    rw [show (20 : Nat) = 19 + 1 from rfl, shutdownIter_succ]
    simp [ha]
  · intro hb
    have hnp : ¬ trace 0 = MState.paused := by
      intro hcontra
      rw [hcontra] at hb
      exact absurd hb (by decide)
    rw [hbody, show (20 : Nat) = 19 + 1 from rfl, shutdownIter_succ,
      if_neg hnp, if_pos hb]
  · intro hc
    rw [hbody]
    show PyResult.ok (shutdownIter trace 0 20).1 = PyResult.ok none
    rw [shutdownIter_none trace 20 0 (fun j hj => hc j (by omega))]

/-- Witness for `shutdown_machine_cases`: a machine that stays `Running` for
all 20 iterations makes the call return Python `None`. -/
theorem shutdown_machine_cases_witness :
    (shutdown_machine 0 rawC4 0 true (fun _ => MState.running)).1
      = PyResult.ok none :=
  (shutdown_machine_cases rawC4 0 ⟨some ("a", MState.running)⟩
      (fun _ => MState.running) rfl rfl).2.2 (fun _ _ => rfl)

/-- One blocker operation preserves `sbInv`. -/
theorem sbStep_inv (s : ShutdownBlocker) (op : SBOp) (h : sbInv s) :
    sbInv (sbStep s op) := by
  obtain ⟨h1, h2⟩ := h
  cases op with
  | enable =>
    by_cases hc : s.counter = 0 <;>
      simp only [sbStep, ShutdownBlocker.enable, hc, if_pos, if_neg,
        reduceIte, sbInv] <;>
      constructor <;> split_ifs at h2 ⊢ <;> omega
  | disable =>
    by_cases hc1 : s.counter = 1
    · simp only [sbStep, ShutdownBlocker.disable, hc1, reduceIte, sbInv]
      constructor <;> split_ifs at h2 ⊢ <;> omega
    · by_cases hc2 : s.counter > 0 <;>
        simp only [sbStep, ShutdownBlocker.disable, hc1, hc2, reduceIte,
          if_pos, if_neg, sbInv] <;>
        constructor <;> split_ifs at h2 ⊢ <;> omega

/-- The invariant holds after any operation sequence on a fresh blocker. -/
theorem sbRun_inv (ops : List SBOp) : sbInv (sbRun ops) := by
  have base : sbInv sbInit := by constructor <;> simp [sbInit]
  suffices h : ∀ (l : List SBOp) (s : ShutdownBlocker),
      sbInv s → sbInv (l.foldl sbStep s) from h ops sbInit base
  intro l
  induction l with
  | nil => intro s hs; exact hs
  | cons a t ih => intro s hs; exact ih (sbStep s a) (sbStep_inv s a hs)

/-- C5: `enable(); enable(); disable(); disable()` on a fresh blocker leaves
the veto inactive (counter back to 0) with exactly one OS registration and
one unregistration issued; and over every operation sequence — in particular
sequences with more disables than enables — the counter never goes negative
and the veto is never unregistered more times than it was registered. -/
theorem shutdown_blocker_balanced :
    sbRun [SBOp.enable, SBOp.enable, SBOp.disable, SBOp.disable]
      = { counter := 0, registers := 1, unregisters := 1 } ∧
    ∀ ops : List SBOp, 0 ≤ (sbRun ops).counter ∧
      (sbRun ops).unregisters ≤ (sbRun ops).registers := by
  constructor
  · decide
  · intro ops
    obtain ⟨h1, h2⟩ := sbRun_inv ops
    refine ⟨h1, ?_⟩
    split_ifs at h2 <;> omega

/-- `__enter__` bumps the hold count by one regardless of worker state. -/
theorem acquire_acquireCnt (st : Ctl) (b : Bool) :
    (st.acquire b).acquireCnt = st.acquireCnt + 1 := by
  unfold Ctl.acquire Ctl.start
  split <;> rfl

/-- `__enter__` always leaves the idle timer cancelled. -/
theorem acquire_timerArmed (st : Ctl) (b : Bool) :
    (st.acquire b).timerArmed = false := by
  unfold Ctl.acquire Ctl.start
  split <;> rfl

/-- `__exit__` away from the zero crossing: only the count changes. -/
theorem release_cnt_ne (st : Ctl) (h : st.acquireCnt - 1 ≠ 0) :
    st.release = { st with acquireCnt := st.acquireCnt - 1 } := by
  unfold Ctl.release
  rw [if_neg h]

/-- `__exit__` hitting zero: the count reaches 0 and the idle timer is
(re)armed. -/
theorem release_cnt_eq (st : Ctl) (h : st.acquireCnt - 1 = 0) :
    st.release = { st with acquireCnt := 0, timerArmed := true } := by
  unfold Ctl.release Ctl.timerStart Ctl.timerStop
  rw [if_pos h, h]
  rfl

/-- `k` acquires: the count rises by `k` and (for `k ≥ 1`) the timer ends
cancelled. -/
theorem acqN_proj (k : Nat) : ∀ st : Ctl, 1 ≤ k →
    (acqN k st).acquireCnt = st.acquireCnt + (k : Int) ∧
      (acqN k st).timerArmed = false := by
  induction k with
  | zero => intro st h; omega
  | succ n ih =>
    intro st _
    by_cases hn : n = 0
    · subst hn
      rw [show acqN 1 st = st.acquire true from rfl]
      refine ⟨?_, acquire_timerArmed st true⟩
      rw [acquire_acquireCnt]
      push_cast
      ring
    · rw [show acqN (n + 1) st = acqN n (st.acquire true) from rfl]
      obtain ⟨c1, c2⟩ := ih (st.acquire true) (by omega)
      refine ⟨?_, c2⟩
      rw [c1, acquire_acquireCnt]
      push_cast
      ring

/-- `k` releases while the count stays strictly positive: the count drops by
`k` and the timer is untouched. -/
theorem relN_lt (k : Nat) : ∀ st : Ctl, (k : Int) < st.acquireCnt →
    (relN k st).acquireCnt = st.acquireCnt - (k : Int) ∧
      (relN k st).timerArmed = st.timerArmed := by
  induction k with
  | zero =>
    intro st _
    constructor
    · show st.acquireCnt = st.acquireCnt - ((0 : Nat) : Int)
      push_cast
      ring
    · rfl
  | succ n ih =>
    intro st h
    have hne : st.acquireCnt - 1 ≠ 0 := by
      have hcast : ((n + 1 : Nat) : Int) = (n : Int) + 1 := by push_cast; ring
      rw [hcast] at h
      omega
    rw [show relN (n + 1) st = relN n st.release from rfl, release_cnt_ne st hne]
    have h2 : (n : Int) <
        ({ st with acquireCnt := st.acquireCnt - 1 } : Ctl).acquireCnt := by
      show (n : Int) < st.acquireCnt - 1
      have hcast : ((n + 1 : Nat) : Int) = (n : Int) + 1 := by push_cast; ring
      rw [hcast] at h
      omega
    obtain ⟨c1, c2⟩ := ih _ h2
    rw [c1, c2]
    constructor
    · show st.acquireCnt - 1 - (n : Int) = st.acquireCnt - ((n + 1 : Nat) : Int)
      push_cast
      ring
    · rfl

/-- `k ≥ 1` releases from a count of exactly `k`: the count reaches 0 and
the final release (re)arms the timer. -/
theorem relN_exact (k : Nat) : ∀ st : Ctl, 1 ≤ k →
    st.acquireCnt = (k : Int) →
    (relN k st).acquireCnt = 0 ∧ (relN k st).timerArmed = true := by
  induction k with
  | zero => intro st h _; omega
  | succ n ih =>
    intro st _ hc
    by_cases hn : n = 0
    · subst hn
      have h1 : st.acquireCnt - 1 = 0 := by
        rw [hc]
        norm_num
      rw [show relN 1 st = relN 0 st.release from rfl,
        show relN 0 st.release = st.release from rfl, release_cnt_eq st h1]
      exact ⟨rfl, rfl⟩
    · have hne : st.acquireCnt - 1 ≠ 0 := by
        have hcast : ((n + 1 : Nat) : Int) = (n : Int) + 1 := by push_cast; ring
        rw [hc, hcast]
        omega
      rw [show relN (n + 1) st = relN n st.release from rfl,
        release_cnt_ne st hne]
      refine ih _ (by omega) ?_
      show st.acquireCnt - 1 = (n : Int)
      have hcast : ((n + 1 : Nat) : Int) = (n : Int) + 1 := by push_cast; ring
      rw [hc, hcast]
      ring

/-- C6 (amended): for every `k ≥ 1` and every executor state with a
non-negative hold count, `k` acquires followed by `k` releases restore the
hold count to its prior value, and the idle timer ends armed exactly when
the prior hold count was zero: the release that returns the count to zero
arms a fresh timer even if none was armed before the first acquire, and
when the prior count was positive the timer ends cancelled.  In particular
the timer is only (re)armed when the hold count returns to zero. -/
theorem acquire_release_timer (k : Nat) (st : Ctl) (hk : 1 ≤ k)
    (hc : 0 ≤ st.acquireCnt) :
    (relN k (acqN k st)).acquireCnt = st.acquireCnt ∧
    (relN k (acqN k st)).timerArmed = decide (st.acquireCnt = 0) := by
  obtain ⟨a1, a2⟩ := acqN_proj k st hk
  by_cases h0 : st.acquireCnt = 0
  · have hcnt : (acqN k st).acquireCnt = (k : Int) := by rw [a1, h0]; ring
    obtain ⟨r1, r2⟩ := relN_exact k (acqN k st) hk hcnt
    rw [r1, r2, h0]
    exact ⟨rfl, rfl⟩
  · have hlt : (k : Int) < (acqN k st).acquireCnt := by rw [a1]; omega
    obtain ⟨r1, r2⟩ := relN_lt k (acqN k st) hlt
    rw [r1, a1, r2, a2]
    constructor
    · ring
    · simp [h0]

/-- Witness for `acquire_release_timer` with `k = 2` on a fresh executor. -/
theorem acquire_release_timer_witness :
    (relN 2 (acqN 2 ctlInit)).acquireCnt = ctlInit.acquireCnt ∧
    (relN 2 (acqN 2 ctlInit)).timerArmed = decide (ctlInit.acquireCnt = 0) :=
  acquire_release_timer 2 ctlInit (by decide) (by decide)

/-- The enumeration emits no log lines at all: the per-machine `except`
branch is `pass`. -/
theorem machinesAux_logs (raw : List RawMachine) :
    ∀ i, (machinesAux raw i).2 = [] := by
  induction raw with
  | nil => intro i; rfl
  | cons m rest ih =>
    intro i
    cases hm : m.meta with
    | none => simp only [machinesAux, hm]; exact ih (i + 1)
    | some p => simp only [machinesAux, hm]; exact ih (i + 1)

/-- The enumeration returns exactly one snapshot per accessible machine. -/
theorem machinesAux_length (raw : List RawMachine) :
    ∀ i, (machinesAux raw i).1.length
      = (raw.filter (fun m => m.meta.isSome)).length := by
  induction raw with
  | nil => intro i; rfl
  | cons m rest ih =>
    intro i
    cases hm : m.meta with
    | none =>
      simp only [machinesAux, hm, List.filter_cons, Option.isSome_none,
        Bool.false_eq_true, if_neg]
      exact ih (i + 1)
    | some p =>
      simp only [machinesAux, hm, List.filter_cons, Option.isSome_some,
        if_pos, List.length_cons]
      rw [ih (i + 1)]

/-- Every snapshot produced from position offset `i` records the ordinal
position (offset included) of the raw machine it was captured from, and
that raw machine's metadata is exactly the snapshot's name and state. -/
theorem machinesAux_mem (raw : List RawMachine) :
    ∀ i s, s ∈ (machinesAux raw i).1 →
      ∃ j, ∃ h : j < raw.length, s.index = i + j ∧
        (raw.get ⟨j, h⟩).meta = some (s.name, s.state) := by
  induction raw with
  | nil => intro i s hs; simp [machinesAux] at hs
  | cons m rest ih =>
    intro i s hs
    cases hm : m.meta with
    | none =>
      rw [machinesAux, hm] at hs
      obtain ⟨j, hj, h1, h2⟩ := ih (i + 1) s hs
      exact ⟨j + 1, by simpa using hj, by omega, h2⟩
    | some p =>
      rw [machinesAux, hm] at hs
      rcases List.mem_cons.mp hs with heq | htail
      · subst heq
        refine ⟨0, by simp, by simp, ?_⟩
        exact hm
      · obtain ⟨j, hj, h1, h2⟩ := ih (i + 1) s htail
        exact ⟨j + 1, by simpa using hj, by omega, h2⟩

/-- C7 (amended): per-machine metadata faults are individually caught and
the faulting machine silently skipped — no log line is produced (the
`logging.error` in the source is commented out; the claim's "logs each
fault" does not hold) — and the enumeration is not aborted: it still
returns exactly one snapshot for every remaining accessible machine, each
carrying the metadata of the raw machine at its recorded position. -/
theorem machines_skips_faulty_silently (raw : List RawMachine) :
    (machines raw).2 = [] ∧
    (machines raw).1.length = (raw.filter (fun m => m.meta.isSome)).length ∧
    ∀ s ∈ (machines raw).1, ∃ h : s.index < raw.length,
      (raw.get ⟨s.index, h⟩).meta = some (s.name, s.state) := by
  refine ⟨machinesAux_logs raw 0, machinesAux_length raw 0, ?_⟩
  intro s hs
  obtain ⟨j, hj, h1, h2⟩ := machinesAux_mem raw 0 s hs
  have hidx : s.index = j := by omega
  subst hidx
  exact ⟨hj, h2⟩

/-- C9: every snapshot's `index` is the machine's ordinal position in the
raw underlying enumeration, counting machines skipped for access faults
(the counter `i` in `machines` is incremented before the faulting metadata
access), so the re-resolution `self._machines()[snapshot.index]` performed
by `shutdown_machine` and `save_machine` addresses exactly the raw position
the snapshot was captured from when the raw list is unchanged: the machine
found there carries the snapshot's own name and state. -/
theorem snapshot_index_targets_origin (raw : List RawMachine) (s : Machine)
    (hs : s ∈ (machines raw).1) :
    raw[s.index]? = some ⟨some (s.name, s.state)⟩ := by
  obtain ⟨j, hj, h1, h2⟩ := machinesAux_mem raw 0 s hs
  have hidx : s.index = j := by omega
  subst hidx
  rw [List.getElem?_eq_getElem hj]
  have hval : raw[s.index] = RawMachine.mk (some (s.name, s.state)) := by
    cases hg : raw.get ⟨s.index, hj⟩ with
    | mk mm =>
      rw [hg] at h2
      calc raw[s.index] = raw.get ⟨s.index, hj⟩ := rfl
        _ = RawMachine.mk mm := hg
        _ = RawMachine.mk (some (s.name, s.state)) := congrArg RawMachine.mk h2
  rw [hval]

/-- Witness for `snapshot_index_targets_origin`: the accessible machine of
`rawC9` yields the snapshot `⟨1, "b", Paused⟩`, and position 1 of the raw
list is that machine. -/
theorem snapshot_index_targets_origin_witness :
    rawC9[(1 : Nat)]? = some ⟨some ("b", MState.paused)⟩ :=
  snapshot_index_targets_origin rawC9 ⟨1, "b", MState.paused⟩ (by decide)
